import Mathlib

/-!
A shallow embedding of `src/voice_transcriber.py` (wispr-flow-lite).

Conventions of the embedding:
* Python strings are Lean `String`s and character-level work is done on
  `List Char` (a `String` is its list of characters).
* Python `str.upper` / `str.lower` / `str.isalnum` are modelled character-wise
  for the ASCII, Cyrillic and Greek ranges, identity elsewhere; all inputs in
  the development stay inside those ranges.
* `re.sub` calls are modelled by structurally recursive scanners that mirror
  the left-to-right, non-overlapping semantics of the Python regexes used.
* Side effects (logging, threads, the PyAudio/OpenAI handles) are dropped;
  the state those effects touch (pressed keys, hotkey registrations, audio
  frames, temp-file tracking) is passed explicitly.
-/

/-! ## Character-level helpers -/

/-- The whitespace characters recognised by Python `str.split()` / `str.strip()`
(space, tab, newline, carriage return, vertical tab, form feed). -/
def pyIsSpace (c : Char) : Bool :=
  c == ' ' || c == '\t' || c == '\n' || c == '\r' ||
  c == Char.ofNat 11 || c == Char.ofNat 12

/-- Python `str.upper`, character-wise, on the ASCII, Cyrillic and Greek
ranges (identity elsewhere). -/
def pyUpperChar (c : Char) : Char :=
  if 'a' ≤ c ∧ c ≤ 'z' then Char.ofNat (c.toNat - 32)
  else if 'а' ≤ c ∧ c ≤ 'я' then Char.ofNat (c.toNat - 32)
  else if c = 'ё' then 'Ё'
  else if c = 'ς' then 'Σ'
  else if 'α' ≤ c ∧ c ≤ 'ω' then Char.ofNat (c.toNat - 32)
  else c

/-- Python `str.lower`, character-wise, on the ASCII, Cyrillic and Greek
ranges (identity elsewhere). -/
def pyLowerChar (c : Char) : Char :=
  if 'A' ≤ c ∧ c ≤ 'Z' then Char.ofNat (c.toNat + 32)
  else if 'А' ≤ c ∧ c ≤ 'Я' then Char.ofNat (c.toNat + 32)
  else if c = 'Ё' then 'ё'
  else if 'Α' ≤ c ∧ c ≤ 'Ω' then Char.ofNat (c.toNat + 32)
  else c

/-- Python `str.isalnum` for a single character, restricted to ASCII digits
and the ASCII, Cyrillic and Greek letter ranges. -/
def pyIsAlnum (c : Char) : Bool :=
  ('0' ≤ c ∧ c ≤ '9') || ('a' ≤ c ∧ c ≤ 'z') || ('A' ≤ c ∧ c ≤ 'Z') ||
  ('а' ≤ c ∧ c ≤ 'я') || ('А' ≤ c ∧ c ≤ 'Я') || c = 'ё' || c = 'Ё' ||
  ('α' ≤ c ∧ c ≤ 'ω') || ('Α' ≤ c ∧ c ≤ 'Ω')

/-- A regex word character (`\w` with `re.UNICODE`), over the ranges the
embedding covers: alphanumeric or underscore. -/
def pyIsWordChar (c : Char) : Bool :=
  pyIsAlnum c || c == '_'

/-! ## String-level helpers -/

/-- Strip characters satisfying `f` from both ends of a character list
(Python `str.strip(chars)`). -/
def stripList (f : Char → Bool) (l : List Char) : List Char :=
  ((l.dropWhile f).reverse.dropWhile f).reverse

/-- Python `str.strip()` (whitespace from both ends). -/
def pyStripWs (s : String) : String :=
  String.mk (stripList pyIsSpace s.data)

/-- The punctuation characters of the strip set used in `clean_text`
(line 437/445): `.,!?;:"()[]` and the two curly braces. -/
def punctStripChars : List Char :=
  ['.', ',', '!', '?', ';', ':', '\"', '(', ')', '[', ']',
   Char.ofNat 123, Char.ofNat 125]

/-- Python `w.strip(".,!?;:\"()[]" + braces)` as used on tokens in
`clean_text`. -/
def stripPunctSet (w : String) : String :=
  String.mk (stripList (fun c => punctStripChars.contains c) w.data)

/-- Python `str.lower()` on a whole string. -/
def pyLowerStr (s : String) : String :=
  String.mk (s.data.map pyLowerChar)

/-- Accumulator pass for `pySplit`: splits on whitespace runs, dropping
empty fields (Python `str.split()` with no argument). -/
def pySplitAux : List Char → List Char → List String
  | [], acc => if acc.isEmpty then [] else [String.mk acc.reverse]
  | c :: rest, acc =>
    if pyIsSpace c then
      if acc.isEmpty then pySplitAux rest []
      else String.mk acc.reverse :: pySplitAux rest []
    else pySplitAux rest (c :: acc)

/-- Python `text.split()` — split on whitespace runs, no empty tokens. -/
def pySplit (s : String) : List String :=
  pySplitAux s.data []

/-- Join a list of words with single spaces (Python `' '.join(words)`). -/
def joinWords : List String → String
  | [] => ""
  | [w] => w
  | w :: rest => w ++ " " ++ joinWords rest

/-! ## The cleanup pass: `clean_text` (lines 420-467) and `improve_grammar`
(lines 469-487) -/

/-- The default filler-word set of `VoiceTranscriber.__init__`
(lines 328-332), with no custom additions. -/
def defaultFillerWords : List String :=
  ["um", "uh", "er", "ah", "like", "you know", "so", "well",
   "hmm", "okay", "right", "actually", "basically", "literally",
   "i mean", "sort of", "kind of", "you see"]

/-- The comparison key for a candidate filler phrase (line 445):
each word punctuation-stripped and lowercased, joined by single spaces. -/
def phraseKey (ws : List String) : String :=
  joinWords (ws.map (fun w => pyLowerStr (stripPunctSet w)))

/-- The filler-removal scan of `clean_text` (lines 433-458): at each index
try phrase windows of length 3, then 2, then 1 (only those that fit);
on a match skip the whole window, otherwise keep the word and advance. -/
def removeFillerLoop (fillers : List String) : List String → List String
  | [] => []
  | w1 :: w2 :: w3 :: rest3 =>
    if fillers.contains (phraseKey [w1, w2, w3]) then
      removeFillerLoop fillers rest3
    else if fillers.contains (phraseKey [w1, w2]) then
      removeFillerLoop fillers (w3 :: rest3)
    else if fillers.contains (phraseKey [w1]) then
      removeFillerLoop fillers (w2 :: w3 :: rest3)
    else w1 :: removeFillerLoop fillers (w2 :: w3 :: rest3)
  | [w1, w2] =>
    if fillers.contains (phraseKey [w1, w2]) then []
    else if fillers.contains (phraseKey [w1]) then
      removeFillerLoop fillers [w2]
    else w1 :: removeFillerLoop fillers [w2]
  | [w1] =>
    if fillers.contains (phraseKey [w1]) then [] else [w1]

/-- Line 475: `text[0].upper() + text[1:]` (for length 1 the two Python
branches coincide character-wise). -/
def capFirst : List Char → List Char
  | [] => []
  | c :: rest => pyUpperChar c :: rest

/-- The character class `[a-zа-я]` of the regex on line 478 — exactly the
Latin a-z and Cyrillic а-я ranges, nothing else. -/
def isDotCapRange (c : Char) : Bool :=
  ('a' ≤ c ∧ c ≤ 'z') || ('а' ≤ c ∧ c ≤ 'я')

/-- Line 478: `re.sub(r'(\. )([a-zа-я])', ... .upper(), text)` — scan left to
right; on `". c"` with `c` in the class, uppercase `c` and continue after it;
otherwise advance one character. -/
def subDotSpace : List Char → List Char
  | '.' :: ' ' :: d :: rest =>
    if isDotCapRange d then '.' :: ' ' :: pyUpperChar d :: subDotSpace rest
    else '.' :: subDotSpace (' ' :: d :: rest)
  | c :: rest => c :: subDotSpace rest
  | [] => []

/-- Line 481: `re.sub(r'\s+', ' ', text)` — collapse each whitespace run to
one space. -/
def collapseWs : List Char → List Char
  | [] => []
  | [c] => if pyIsSpace c then [' '] else [c]
  | c :: d :: rest =>
    if pyIsSpace c then
      if pyIsSpace d then collapseWs (d :: rest)
      else ' ' :: collapseWs (d :: rest)
    else c :: collapseWs (d :: rest)

/-- The punctuation class `[.!?,:;]` of the regex on line 482. -/
def grammarPunct (c : Char) : Bool :=
  ['.', '!', '?', ',', ':', ';'].contains c

/-- Whether the maximal whitespace run at the head of `l` is immediately
followed by a `grammarPunct` character. -/
def wsRunBeforePunct (l : List Char) : Bool :=
  match l.dropWhile pyIsSpace with
  | p :: _ => grammarPunct p
  | [] => false

/-- Line 482: `re.sub(r'\s+([.!?,:;])', r'\1', text)` — delete every
whitespace run that is immediately followed by punctuation. -/
def subSpacePunct : List Char → List Char
  | [] => []
  | c :: rest =>
    if pyIsSpace c then
      if wsRunBeforePunct (c :: rest) then subSpacePunct rest
      else c :: subSpacePunct rest
    else c :: subSpacePunct rest

/-- Is the head of the list a word character? (`\b` lookahead). -/
def headIsWord : List Char → Bool
  | [] => false
  | c :: _ => pyIsWordChar c

/-- Is the (optional) previous character a word character? (`\b` lookbehind;
`none` means start of string). -/
def isWordOpt : Option Char → Bool
  | none => false
  | some c => pyIsWordChar c

/-- Line 485: `re.sub(r'\bi\b', 'I', text)` — replace a standalone `i`
(word boundaries on both sides) by `I`. -/
def subWordI : Option Char → List Char → List Char
  | _, [] => []
  | prev, c :: rest =>
    if c == 'i' && !isWordOpt prev && !headIsWord rest then
      'I' :: subWordI (some c) rest
    else c :: subWordI (some c) rest

/-- `improve_grammar` (lines 469-487): capitalize the first character,
capitalize `[a-zа-я]` after `". "`, collapse whitespace runs, drop spaces
before punctuation, normalise standalone `i` to `I`, strip the ends. -/
def improve_grammar (text : String) : String :=
  if text = "" then ""
  else
    String.mk
      (stripList pyIsSpace
        (subWordI none
          (subSpacePunct
            (collapseWs
              (subDotSpace
                (capFirst text.data))))))

/-- `clean_text` (lines 420-467): whitespace-split, optionally remove filler
phrases (longest window first), rejoin with single spaces, then apply
`improve_grammar`.  (The per-word `word_lower` computed on line 437 is unused
by the original code and therefore not modelled.) -/
def clean_text (fillers : List String) (removeFillers : Bool) (text : String) : String :=
  if text = "" then ""
  else
    let original_words := pySplit text
    let words := if removeFillers then removeFillerLoop fillers original_words
                 else original_words
    improve_grammar (joinWords words)

/-- `clean_text` under the default configuration: the built-in filler set and
`REMOVE_FILLER_WORDS` defaulting to true (line 431). -/
def cleanTextDefault (text : String) : String :=
  clean_text defaultFillerWords true text

/-! ## Keys and the hotkey parser (lines 47-138) -/

/-- The pynput key objects used by the program: named modifier keys (with
their left/right variants), named special keys, character keys
(`KeyCode.from_char`) and virtual-key-code keys (`KeyCode.from_vk`). -/
inductive Key
  | ctrl | alt | shift | cmd
  | ctrl_l | ctrl_r | alt_l | alt_r
  | shift_l | shift_r | cmd_l | cmd_r
  | space | tab | enter | backspace | delete | esc
  | char (c : Char)
  | vk (n : Nat)
deriving DecidableEq

/-- `HotkeyManager._normalize_key` (lines 178-189): collapse left/right
modifier variants to the canonical modifier; all other keys unchanged. -/
def normalizeKey : Key → Key
  | .ctrl_l => .ctrl
  | .ctrl_r => .ctrl
  | .alt_l => .alt
  | .alt_r => .alt
  | .shift_l => .shift
  | .shift_r => .shift
  | .cmd_l => .cmd
  | .cmd_r => .cmd
  | k => k

/-- The function-key pattern of line 111, `^f([1-9]|1[0-9]|2[0-4])$`:
`f` followed by 1-9, 10-19 or 20-24 (no leading zeros). -/
def fkeyNum (k : String) : Option Nat :=
  match k.data with
  | ['f', d] =>
    if '1' ≤ d ∧ d ≤ '9' then some (d.toNat - 48) else none
  | ['f', '1', d] =>
    if '0' ≤ d ∧ d ≤ '9' then some (10 + (d.toNat - 48)) else none
  | ['f', '2', d] =>
    if '0' ≤ d ∧ d ≤ '4' then some (20 + (d.toNat - 48)) else none
  | _ => none

/-- `HotkeyParser._parse_single_key` (lines 96-120): lowercase and strip,
then try the modifier table, the special-key table, the f1-f24 pattern
(vk = 111 + n), and finally a single alphanumeric character. -/
def parseSingleKey (keyString : String) : Option Key :=
  let k := pyStripWs (pyLowerStr keyString)
  if k = "ctrl" ∨ k = "control" then some .ctrl
  else if k = "alt" ∨ k = "option" then some .alt
  else if k = "shift" then some .shift
  else if k = "cmd" ∨ k = "win" ∨ k = "super" ∨ k = "meta" then some .cmd
  else if k = "space" then some .space
  else if k = "tab" then some .tab
  else if k = "enter" ∨ k = "return" then some .enter
  else if k = "backspace" then some .backspace
  else if k = "delete" then some .delete
  else if k = "esc" ∨ k = "escape" then some .esc
  else
    match fkeyNum k with
    | some n => some (.vk (111 + n))
    | none =>
      match k.data with
      | [c] => if pyIsAlnum c then some (.char c) else none
      | _ => none

/-- Python `hotkey_string.split('+')` (split on every `+`, keeping empty
fields, as `str.split` with an explicit separator does). -/
def splitPlus : List Char → List Char → List String
  | [], acc => [String.mk acc.reverse]
  | c :: rest, acc =>
    if c == '+' then String.mk acc.reverse :: splitPlus rest []
    else splitPlus rest (c :: acc)

/-- Line 81 token normalization: `part.strip().lower()`. -/
def normToken (p : String) : String :=
  pyLowerStr (pyStripWs p)

/-- Resolve every token of the list, collecting the keys into a set
(the loop of lines 88-92); any failing token fails the whole parse. -/
def parseParts : List String → Option (Finset Key)
  | [] => some ∅
  | p :: rest =>
    match parseSingleKey p, parseParts rest with
    | some k, some ks => some (insert k ks)
    | _, _ => none

/-- `HotkeyParser.parse_hotkey` (lines 74-94): reject empty input, split on
`+`, normalize each token, resolve all tokens (all-or-nothing), reject an
empty key set. -/
def parse_hotkey (s : String) : Option (Finset Key) :=
  if s = "" then none
  else
    let parts := (splitPlus s.data []).map normToken
    if parts = [] then none
    else
      match parseParts parts with
      | none => none
      | some keys => if keys = ∅ then none else some keys

/-- `HotkeyParser.validate_hotkey` (lines 122-138): empty string, parse
failure, empty key set and more than 4 keys are each rejected with a
message; otherwise the hotkey is valid. -/
def validate_hotkey (s : String) : Bool × String :=
  if s = "" then (false, "Hotkey string cannot be empty")
  else
    match parse_hotkey s with
    | none => (false, "Invalid hotkey format: \x27" ++ s ++ "\x27")
    | some keys =>
      if keys.card = 0 then (false, "No valid keys found in hotkey string")
      else if keys.card > 4 then
        (false, "Too many keys in combination (maximum 4)")
      else (true, "Valid hotkey")

/-- `HotkeyManager.register_hotkey` (lines 159-176), restricted to the data
the claims depend on: the set of registered key combinations.  A parse
failure returns `false` and stores nothing; success stores the frozen key
set and returns `true`.  (The callbacks, source string, active flag and
timestamp stored alongside are irrelevant to registration membership.) -/
def register_hotkey (hotkeys : Finset (Finset Key)) (s : String) :
    Finset (Finset Key) × Bool :=
  match parse_hotkey s with
  | none => (hotkeys, false)
  | some keys => (insert keys hotkeys, true)

/-! ## The hotkey edge detector (lines 191-223) -/

/-- The state the edge detector keeps for one registered combination: the
shared pressed-key set and that registration's `is_active` flag. -/
structure HotkeyState where
  pressed : Finset Key
  active : Bool
deriving DecidableEq

/-- A raw keyboard event as delivered to `_on_press` / `_on_release`. -/
inductive KeyEvent
  | press (k : Key)
  | release (k : Key)
deriving DecidableEq

/-- One event step of `_on_press`/`_check_hotkey_matches` and
`_on_release`/`_check_hotkey_releases` (lines 191-223) for one registered
combination: normalize the key, update the pressed set, then fire the edge
callbacks exactly as the source's subset tests dictate.  Returns the new
state, whether `on_press` fired, and whether `on_release` fired. -/
def hkStep (combo : Finset Key) (s : HotkeyState) : KeyEvent → HotkeyState × Bool × Bool
  | .press k =>
    let p := insert (normalizeKey k) s.pressed
    if combo ⊆ p ∧ s.active = false then (⟨p, true⟩, true, false)
    else (⟨p, s.active⟩, false, false)
  | .release k =>
    let p := s.pressed.erase (normalizeKey k)
    if s.active = true ∧ ¬ combo ⊆ p then (⟨p, false⟩, false, true)
    else (⟨p, s.active⟩, false, false)

/-! ## Listener start/stop (lines 235-257) -/

/-- The `HotkeyManager` state touched by `start_listening`/`stop_listening`:
the listener handle (present or not), the listening flag, the pressed-key
set and each registration's key set with its `is_active` flag. -/
structure ManagerState where
  hasListener : Bool
  isListening : Bool
  pressed : Finset Key
  regs : List (Finset Key × Bool)
deriving DecidableEq

/-- `start_listening` (lines 235-245): a no-op when already listening,
otherwise create and start a listener and set the flag. -/
def start_listening (s : ManagerState) : ManagerState :=
  if s.isListening then s
  else { s with hasListener := true, isListening := true }

/-- `stop_listening` (lines 247-257): stop and drop the listener (if any),
clear the listening flag, clear the pressed set, and force every
registration's `is_active` flag to false.  The second component lists the
release callbacks fired during the call — the source fires none
(`_trigger_callback` is not invoked anywhere in `stop_listening`). -/
def stop_listening (s : ManagerState) : ManagerState × List Unit :=
  ({ hasListener := false, isListening := false, pressed := ∅,
     regs := s.regs.map (fun r => (r.1, false)) }, [])

/-! ## The recording loop `_record_audio` (lines 496-568) and
`stop_recording` (lines 593-606) -/

/-- The outcome of one `stream.read` call (line 538): data, a transient
input-overflow error (swallowed, line 556-558), or any other read error
(which ends the loop, line 559). -/
inductive ReadResult
  | ok (data : List Nat)
  | overflowError
  | otherError
deriving DecidableEq

/-- The environment one iteration of the recording loop observes: the
`is_recording` flag at the loop head, whether the ~2-second device
re-validation is due and what it reports, whether the stream is still
active, the read outcome, and whether the maximum recording time has
elapsed. -/
structure TickInput where
  stopRequested : Bool
  deviceCheckDue : Bool
  deviceAvailable : Bool
  streamActive : Bool
  readResult : ReadResult
  timeExceeded : Bool
deriving DecidableEq

/-- Why the recording loop ended, one constructor per exit site of
lines 522-559 (these are the reasons §4.3 of the spec names):
`userRequested` = `is_recording` cleared (line 522), `deviceLost` =
device re-validation failed (line 529), `streamInactive` = stream no
longer active (line 535), `memoryLimit` = accumulated bytes over the
ceiling (line 546), `timeLimit` = max duration reached (line 551),
`streamError` = non-overflow read error (line 559). -/
inductive ExitReason
  | userRequested
  | deviceLost
  | streamInactive
  | memoryLimit
  | timeLimit
  | streamError
deriving DecidableEq

/-- The chunk-reading loop of `_record_audio` (lines 522-559), checking in
source order: the recording flag, the periodic device check, stream
activity, then the read; a successful read appends the chunk and updates
the byte counter before the memory and time checks.  Returns the
accumulated frames and the exit reason, or `none` if the supplied inputs
ran out with the loop still recording. -/
def recordLoop (maxBytes : Nat) :
    List TickInput → List (List Nat) → Nat → Option (List (List Nat) × ExitReason)
  | [], _, _ => none
  | t :: rest, frames, mem =>
    if t.stopRequested then some (frames, .userRequested)
    else if t.deviceCheckDue && !t.deviceAvailable then some (frames, .deviceLost)
    else if !t.streamActive then some (frames, .streamInactive)
    else
      match t.readResult with
      | .overflowError => recordLoop maxBytes rest frames mem
      | .otherError => some (frames, .streamError)
      | .ok data =>
        if maxBytes < mem + data.length then some (frames ++ [data], .memoryLimit)
        else if t.timeExceeded then some (frames ++ [data], .timeLimit)
        else recordLoop maxBytes rest (frames ++ [data]) (mem + data.length)

/-- The decision `stop_recording` (lines 593-606) makes after clearing the
flag and tearing down the stream: with no recorded frames it returns
without processing (lines 599-601); otherwise it starts the
`_process_audio` thread on the accumulated frames. -/
def stopStartsProcessing (frames : List (List Nat)) : Bool :=
  !frames.isEmpty

/-- The finalized audio payload `save_audio_to_file` writes (lines 674-678):
the WAV header fields and the concatenation of all recorded chunks. -/
structure AudioBlob where
  nchannels : Nat
  sampwidth : Nat
  framerate : Nat
  blobData : List Nat
deriving DecidableEq

/-- `save_audio_to_file` (lines 665-688): `none` when no frames were
recorded (line 668), otherwise a blob joining all frames under the
configured channel count, sample width and rate. -/
def save_audio_to_file (channels sampwidth rate : Nat)
    (frames : List (List Nat)) : Option AudioBlob :=
  if frames = [] then none
  else some ⟨channels, sampwidth, rate, frames.flatten⟩

/-! ## `_process_audio` (lines 608-638), temp-file tracking and `cleanup`
(lines 806-832) -/

/-- What the transcription step does on a given run: a transcript, failure
of all retry attempts (the decorated call raises), or an exception from a
later processing step. -/
inductive TranscribeOutcome
  | ok (text : String)
  | failedAllRetries
  | raised
deriving DecidableEq

/-- `_process_audio` (lines 608-638) acting on the temp-file tracking set:
saving the audio registers the temp file name (line 672); every subsequent
path — empty transcript, successful injection, transcription failure, or
an exception (caught on line 634) — leaves the tracking set as is, because
the `finally` block (lines 636-638) deletes nothing.  Returns the updated
tracking set and the text handed to injection, if any. -/
def process_audio (fname : String) (frames : List (List Nat))
    (outcome : TranscribeOutcome) (tempFiles : Finset String) :
    Finset String × Option String :=
  if frames = [] then (tempFiles, none)
  else
    let tracked := insert fname tempFiles
    match outcome with
    | .ok text =>
      if text = "" then (tracked, none)
      else
        let cleaned := cleanTextDefault text
        if cleaned = "" then (tracked, none) else (tracked, some cleaned)
    | .failedAllRetries => (tracked, none)
    | .raised => (tracked, none)

/-- The temp-file removal loop of `cleanup` (lines 822-829), the only place
tracked temp files are deleted: afterwards no tracked file remains. -/
def cleanup_files (_tempFiles : Finset String) : Finset String := ∅

/-! ## `transcribe_audio` retry behaviour (lines 640-663) -/

/-- The retry loop the `tenacity` decorator on line 640 wraps around the
backend call: `stop_after_attempt(3)` makes attempts numbered from 1, stops
after the given total, and re-raises after the last failure.  `backend n`
is the outcome of the n-th call.  Returns the transcript (or `none` when
every allowed attempt failed) together with the number of calls made. -/
def retryRun (backend : Nat → Option String) : Nat → Nat → Option String × Nat
  | _, 0 => (none, 0)
  | attempt, n + 1 =>
    match backend attempt with
    | some t => (some t, attempt)
    | none => if n = 0 then (none, attempt) else retryRun backend (attempt + 1) n

/-- `transcribe_audio` (lines 640-663) as seen through its retry decorator:
up to 3 attempts against the backend. -/
def transcribe_audio (backend : Nat → Option String) : Option String × Nat :=
  retryRun backend 1 3

/-! ## Shared lemmas -/

/-- A token that resolves to no key fails the whole token-resolution pass. -/
lemma parseParts_eq_none_of_mem {l : List String} {p : String}
    (hp : p ∈ l) (hnone : parseSingleKey p = none) : parseParts l = none := by
  induction l with
  | nil => cases hp
  | cons q rest ih =>
    rcases List.mem_cons.mp hp with rfl | hmem
    · simp [parseParts, hnone]
    · simp only [parseParts, ih hmem]
      cases parseSingleKey q <;> rfl

/-- `splitPlus` always yields at least one (possibly empty) token. -/
lemma splitPlus_ne_nil (l acc : List Char) : splitPlus l acc ≠ [] := by
  induction l generalizing acc with
  | nil => simp [splitPlus]
  | cons c rest ih =>
    simp only [splitPlus]
    split
    · simp
    · exact ih _

/-- If every token of the list resolves, the resolution pass succeeds, and
on a nonempty list the resulting key set is nonempty. -/
lemma parseParts_resolves {l : List String}
    (h : ∀ p ∈ l, parseSingleKey p ≠ none) :
    ∃ ks, parseParts l = some ks ∧ (l = [] ∨ ks ≠ ∅) := by
  induction l with
  | nil => exact ⟨∅, rfl, Or.inl rfl⟩
  | cons q rest ih =>
    obtain ⟨ks, hks, -⟩ := ih (fun p hp => h p (List.mem_cons_of_mem _ hp))
    have hq := h q (List.mem_cons_self _ _)
    rcases hkq : parseSingleKey q with - | k
    · exact absurd hkq hq
    · refine ⟨insert k ks, ?_, Or.inr (Finset.insert_ne_empty _ _)⟩
      simp [parseParts, hkq, hks]

/-- `transcribe_audio` spelled out as its at-most-three backend calls. -/
lemma transcribe_audio_unfold (b : Nat → Option String) :
    transcribe_audio b
      = match b 1 with
        | some t => (some t, 1)
        | none =>
          match b 2 with
          | some t => (some t, 2)
          | none =>
            match b 3 with
            | some t => (some t, 3)
            | none => (none, 3) := by
  show retryRun b 1 3 = _
  cases h1 : b 1 <;> cases h2 : b 2 <;> cases h3 : b 3 <;>
    simp [retryRun, h1, h2, h3]

/-! ## Claim theorems -/

/-- C1, counterexample. The claim says a mid-session device loss must yield
no blob and the stop path must not hand captured chunks to transcription.
On the concrete run below, one chunk is captured, the ~2 s re-validation
then reports the device gone and the loop exits with `DeviceLost` — yet
`stop_recording` (modelled by `stopStartsProcessing`) does start processing
the retained chunk, and `save_audio_to_file` produces a blob from it. -/
theorem spec_C1_counterexample :
    recordLoop 1000000
      [⟨false, false, true, true, ReadResult.ok [5, 6], false⟩,
       ⟨false, true, false, true, ReadResult.ok [], false⟩] [] 0
      = some ([[5, 6]], ExitReason.deviceLost)
    ∧ stopStartsProcessing [[5, 6]] = true
    ∧ save_audio_to_file 1 2 16000 [[5, 6]] = some ⟨1, 2, 16000, [5, 6]⟩ := by
  decide

/-- C1, amended. When the periodic device re-validation reports the device
gone, the recording loop exits with reason `DeviceLost`, but every chunk
captured before the loss is retained, and whenever at least one chunk was
captured the subsequent stop path does hand the chunks to transcription and
a blob is produced from them. -/
theorem spec_C1_deviceLost_chunks_processed (maxBytes mem0 : Nat)
    (inputs : List TickInput) (frames0 F : List (List Nat))
    (h : recordLoop maxBytes inputs frames0 mem0 = some (F, ExitReason.deviceLost)) :
    (∃ suf, F = frames0 ++ suf)
    ∧ (F ≠ [] → stopStartsProcessing F = true
        ∧ ∀ ch sw rate, save_audio_to_file ch sw rate F
            = some ⟨ch, sw, rate, F.flatten⟩) := by
  refine ⟨?_, fun hne =>
    ⟨by simp [stopStartsProcessing, hne],
     fun ch sw rate => by simp [save_audio_to_file, hne]⟩⟩
  induction inputs generalizing frames0 mem0 with
  | nil => simp [recordLoop] at h
  | cons t rest ih =>
    rw [recordLoop] at h
    split at h
    · simp at h
    · split at h
      · have hF : frames0 = F := by simpa using h
        exact ⟨[], by simp [hF]⟩
      · split at h
        · simp at h
        · split at h
          · exact ih _ _ h
          · simp at h
          · split at h
            · simp at h
            · split at h
              · simp at h
              · obtain ⟨suf, hsuf⟩ := ih _ _ h
                exact ⟨[_] ++ suf, by rw [hsuf, List.append_assoc]⟩

/-- C1, witness for the amended theorem at a concrete device-loss run. -/
theorem spec_C1_witness :
    (∃ suf, ([[5, 6]] : List (List Nat)) = [] ++ suf)
    ∧ (([[5, 6]] : List (List Nat)) ≠ [] → stopStartsProcessing [[5, 6]] = true
        ∧ ∀ ch sw rate, save_audio_to_file ch sw rate [[5, 6]]
            = some ⟨ch, sw, rate, ([[5, 6]] : List (List Nat)).flatten⟩) :=
  spec_C1_deviceLost_chunks_processed 1000000 0
    [⟨false, false, true, true, ReadResult.ok [5, 6], false⟩,
     ⟨false, true, false, true, ReadResult.ok [], false⟩]
    [] [[5, 6]] (by decide)

/-- C2, counterexample. The claim says the cleanup of `"uh hello world"`
returns exactly `"Hello world."`; the code appends no period, so the actual
result differs from the claimed string. -/
theorem spec_C2_counterexample :
    cleanTextDefault "uh hello world" ≠ "Hello world." := by decide

/-- C2, amended. With the default filler set, the cleanup pass on
`"uh hello world"` removes the filler token and capitalizes the first
letter, returning exactly `"Hello world"` — with no trailing period. -/
theorem spec_C2_cleanup_no_period :
    cleanTextDefault "uh hello world" = "Hello world" := by decide

/-- C3, counterexample. The claim says the temp resource is released after
each pipeline run regardless of outcome.  On a concrete run (any of the
three outcomes: success, all-retries failure, or a raised processing
error) `_process_audio` leaves the temp file in the tracking set — nothing
releases it after the use. -/
theorem spec_C3_counterexample :
    ((process_audio "tmp1.wav" [[1]] (TranscribeOutcome.ok "hi") ∅).1 = {"tmp1.wav"}
      ∧ (process_audio "tmp1.wav" [[1]] TranscribeOutcome.failedAllRetries ∅).1 = {"tmp1.wav"}
      ∧ (process_audio "tmp1.wav" [[1]] TranscribeOutcome.raised ∅).1 = {"tmp1.wav"})
    ∧ ({"tmp1.wav"} : Finset String) ≠ (∅ : Finset String) := by decide

/-- C3, amended. For every pipeline run on a non-empty recording, the temp
file the blob was persisted to remains in the `temp_files` tracking set
after the run, whatever the outcome; it is released only by `cleanup`
(the shutdown path), which empties the tracking set. -/
theorem spec_C3_temp_released_only_at_cleanup (fname : String)
    (frames : List (List Nat)) (outcome : TranscribeOutcome) (tf : Finset String)
    (h : frames ≠ []) :
    fname ∈ (process_audio fname frames outcome tf).1
    ∧ cleanup_files (process_audio fname frames outcome tf).1 = ∅ := by
  refine ⟨?_, rfl⟩
  cases outcome with
  | ok text =>
    simp [process_audio, h]
    split_ifs <;> simp
  | failedAllRetries => simp [process_audio, h]
  | raised => simp [process_audio, h]

/-- C3, witness for the amended theorem at a concrete run. -/
theorem spec_C3_witness :
    "t.wav" ∈ (process_audio "t.wav" [[7]] TranscribeOutcome.raised ∅).1
    ∧ cleanup_files (process_audio "t.wav" [[7]] TranscribeOutcome.raised ∅).1 = ∅ :=
  spec_C3_temp_released_only_at_cleanup "t.wav" [[7]] TranscribeOutcome.raised ∅ (by decide)

/-- C4, confirmed. For any registered combination and any normalized state
whose `is_active` flag agrees with the subset status (the invariant the
edge detector maintains, re-established by the conclusion), a press event
fires `on_press` exactly when the combination's key set becomes a subset
of the pressed set having not been one (firing nothing while Active), and
a release event fires `on_release` exactly when the key set stops being a
subset while Active; neither event fires the other callback. -/
theorem spec_C4_edge_exactly_once (combo : Finset Key) (s : HotkeyState) (k : Key)
    (hinv : s.active = true ↔ combo ⊆ s.pressed) :
    (((hkStep combo s (.press k)).1.active = true
        ↔ combo ⊆ (hkStep combo s (.press k)).1.pressed)
      ∧ ((hkStep combo s (.press k)).2.1 = true
        ↔ combo ⊆ (hkStep combo s (.press k)).1.pressed ∧ ¬ combo ⊆ s.pressed)
      ∧ (hkStep combo s (.press k)).2.2 = false)
    ∧ (((hkStep combo s (.release k)).1.active = true
        ↔ combo ⊆ (hkStep combo s (.release k)).1.pressed)
      ∧ ((hkStep combo s (.release k)).2.2 = true
        ↔ combo ⊆ s.pressed ∧ ¬ combo ⊆ (hkStep combo s (.release k)).1.pressed)
      ∧ (hkStep combo s (.release k)).2.1 = false) := by
  constructor
  · simp only [hkStep]
    by_cases hc : combo ⊆ insert (normalizeKey k) s.pressed ∧ s.active = false
    · rw [if_pos hc]
      exact ⟨⟨fun _ => hc.1, fun _ => rfl⟩,
        ⟨fun _ => ⟨hc.1, fun hsub => absurd (hinv.mpr hsub) (by simp [hc.2])⟩,
         fun _ => rfl⟩, rfl⟩
    · rw [if_neg hc]
      refine ⟨⟨fun ha => (hinv.mp ha).trans (Finset.subset_insert _ _), fun hsubp => ?_⟩,
        ⟨fun hcon => absurd hcon (by simp), fun h2 => ?_⟩, rfl⟩
      · cases hact : s.active
        · exact absurd ⟨hsubp, hact⟩ hc
        · rfl
      · cases hact : s.active
        · exact absurd ⟨h2.1, hact⟩ hc
        · exact absurd (hinv.mp hact) h2.2
  · simp only [hkStep]
    by_cases hc : s.active = true ∧ ¬ combo ⊆ s.pressed.erase (normalizeKey k)
    · rw [if_pos hc]
      exact ⟨⟨fun hcon => absurd hcon (by simp), fun hsubp => absurd hsubp hc.2⟩,
        ⟨fun _ => ⟨hinv.mp hc.1, hc.2⟩, fun _ => rfl⟩, rfl⟩
    · rw [if_neg hc]
      refine ⟨⟨fun ha => ?_, fun hsubp => hinv.mpr (hsubp.trans (Finset.erase_subset _ _))⟩,
        ⟨fun hcon => absurd hcon (by simp), fun h2 => absurd ⟨hinv.mpr h2.1, h2.2⟩ hc⟩, rfl⟩
      by_cases hp : combo ⊆ s.pressed.erase (normalizeKey k)
      · exact hp
      · exact absurd ⟨ha, hp⟩ hc

/-- C4, witness: from the empty pressed set, pressing the left control key
makes a registered `ctrl` combination fire `on_press` (left/right variants
normalize to the canonical modifier). -/
theorem spec_C4_witness :
    (hkStep {Key.ctrl} ⟨∅, false⟩ (KeyEvent.press Key.ctrl_l)).2.1 = true :=
  ((spec_C4_edge_exactly_once {Key.ctrl} ⟨∅, false⟩ Key.ctrl_l (by decide)).1.2.1).mpr
    (by decide)

/-- C5, confirmed. Whenever the recording loop ends with reason
`MemoryLimit` — a graceful stop, a reason distinct from every error exit —
the accumulated chunk list is non-empty, its total byte count exceeds the
ceiling, and `save_audio_to_file` still produces a blob concatenating
exactly the captured chunks. -/
theorem spec_C5_memory_limit_blob (maxBytes : Nat) (inputs : List TickInput)
    (frames0 F : List (List Nat)) (mem0 : Nat)
    (hmem : mem0 = (frames0.map List.length).sum)
    (h : recordLoop maxBytes inputs frames0 mem0 = some (F, ExitReason.memoryLimit)) :
    F ≠ [] ∧ maxBytes < (F.map List.length).sum
    ∧ ∀ ch sw rate, save_audio_to_file ch sw rate F
        = some ⟨ch, sw, rate, F.flatten⟩ := by
  induction inputs generalizing frames0 mem0 with
  | nil => simp [recordLoop] at h
  | cons t rest ih =>
    rw [recordLoop] at h
    split at h
    · simp at h
    · split at h
      · simp at h
      · split at h
        · simp at h
        · split at h
          · exact ih _ _ hmem h
          · simp at h
          · rename_i data _
            split at h
            · rename_i hcond
              have hF : frames0 ++ [data] = F := by simpa using h
              subst hF
              refine ⟨by simp, ?_, fun ch sw rate => by simp [save_audio_to_file]⟩
              simpa [hmem] using hcond
            · split at h
              · simp at h
              · exact ih _ _ (by simp [hmem]) h

/-- C5, witness: a 3-byte ceiling exceeded by the second 2-byte chunk. -/
theorem spec_C5_witness :
    ([[1, 2], [3, 4]] : List (List Nat)) ≠ []
    ∧ 3 < (([[1, 2], [3, 4]] : List (List Nat)).map List.length).sum
    ∧ ∀ ch sw rate, save_audio_to_file ch sw rate [[1, 2], [3, 4]]
        = some ⟨ch, sw, rate, ([[1, 2], [3, 4]] : List (List Nat)).flatten⟩ :=
  spec_C5_memory_limit_blob 3
    [⟨false, false, true, true, ReadResult.ok [1, 2], false⟩,
     ⟨false, false, true, true, ReadResult.ok [3, 4], false⟩]
    [] [[1, 2], [3, 4]] 0 rfl (by decide)

/-- C6, confirmed. The retry-decorated transcription call makes at most 3
attempts: a backend failing twice and succeeding on the third call yields
the successful text after exactly 3 calls; a backend failing on all three
yields failure (`TranscriptionFailed`) after exactly 3 calls; and the
result never depends on what the backend would do on a fourth call. -/
theorem spec_C6_retry_three_attempts :
    (∀ (b : Nat → Option String) (t : String),
        b 1 = none → b 2 = none → b 3 = some t → transcribe_audio b = (some t, 3))
    ∧ (∀ b : Nat → Option String,
        b 1 = none → b 2 = none → b 3 = none → transcribe_audio b = (none, 3))
    ∧ (∀ b b' : Nat → Option String,
        (∀ i, 1 ≤ i → i ≤ 3 → b i = b' i) → transcribe_audio b = transcribe_audio b') := by
  refine ⟨?_, ?_, ?_⟩
  · intro b t h1 h2 h3
    rw [transcribe_audio_unfold, h1, h2, h3]
  · intro b h1 h2 h3
    rw [transcribe_audio_unfold, h1, h2, h3]
  · intro b b' hag
    rw [transcribe_audio_unfold b, transcribe_audio_unfold b',
      hag 1 (by norm_num) (by norm_num), hag 2 (by norm_num) (by norm_num),
      hag 3 (by norm_num) (by norm_num)]

/-- C6, witness: a backend succeeding only on its third call. -/
theorem spec_C6_witness :
    transcribe_audio (fun i => if i = 3 then some "hi" else none) = (some "hi", 3) :=
  spec_C6_retry_three_attempts.1 (fun i => if i = 3 then some "hi" else none) "hi"
    rfl rfl rfl

/-- C7, confirmed. If any `+`-separated token of a configuration string
resolves to no key, the whole parse fails (`parse_hotkey` returns nothing)
and registering that string stores nothing and reports failure. -/
theorem spec_C7_bad_token_fails_whole (hotkeys : Finset (Finset Key)) (s : String)
    (hbad : ∃ p ∈ (splitPlus s.data []).map normToken, parseSingleKey p = none) :
    parse_hotkey s = none ∧ register_hotkey hotkeys s = (hotkeys, false) := by
  obtain ⟨p, hp, hnone⟩ := hbad
  have hparse : parse_hotkey s = none := by
    by_cases hs : s = ""
    · simp [parse_hotkey, hs]
    · have hnp := parseParts_eq_none_of_mem hp hnone
      simp only [parse_hotkey, if_neg hs]
      by_cases hemp : (splitPlus s.data []).map normToken = []
      · simp [hemp]
      · simp [hemp, hnp]
  exact ⟨hparse, by simp [register_hotkey, hparse]⟩

/-- C7, witness: the string `"ctrl+foo"`, whose second token resolves to no
key. -/
theorem spec_C7_witness :
    parse_hotkey "ctrl+foo" = none
    ∧ register_hotkey ∅ "ctrl+foo" = ((∅ : Finset (Finset Key)), false) :=
  spec_C7_bad_token_fails_whole ∅ "ctrl+foo" ⟨"foo", by decide, by decide⟩

/-- C8, confirmed. Starting an already-started manager changes nothing;
stopping — also twice in a row — produces no error, leaves the pressed-key
set empty after each call, forces every registration back to Idle, fires no
release callback, and a second stop changes nothing further. -/
theorem spec_C8_start_stop_idempotent :
    (∀ s : ManagerState, s.isListening = true → start_listening s = s)
    ∧ (∀ s : ManagerState,
        (stop_listening s).1.pressed = ∅
        ∧ (stop_listening (stop_listening s).1).1.pressed = ∅
        ∧ (∀ r ∈ (stop_listening s).1.regs, r.2 = false)
        ∧ (stop_listening s).2 = []
        ∧ stop_listening (stop_listening s).1 = stop_listening s) := by
  constructor
  · intro s h
    simp [start_listening, h]
  · intro s
    refine ⟨rfl, rfl, ?_, rfl, ?_⟩
    · intro r hr
      simp only [stop_listening, List.mem_map] at hr
      obtain ⟨a, -, rfl⟩ := hr
      rfl
    · simp [stop_listening, List.map_map, Function.comp_def]

/-- C8, witness: starting a manager that is already listening is a no-op. -/
theorem spec_C8_witness :
    start_listening ⟨true, true, ∅, []⟩ = ⟨true, true, ∅, []⟩ :=
  spec_C8_start_stop_idempotent.1 ⟨true, true, ∅, []⟩ rfl

/-- C9, counterexample. The claim says capitalization after `". "` works
for any cased script; for Greek input the letter after `". "` is left
lowercase (only the first letter of the string is uppercased), so the
output differs from what the claim requires. -/
theorem spec_C9_counterexample :
    improve_grammar "α. β" = "Α. β" ∧ improve_grammar "α. β" ≠ "Α. Β" := by
  decide

/-- C9, amended. The first letter of the string is uppercased for any cased
script the embedding covers, but the letter following `". "` is uppercased
exactly when it lies in the Latin `a`-`z` or Cyrillic `а`-`я` ranges of the
source regex; any other letter there (Greek, or Cyrillic `ё`) is left
unchanged, as the general scan equation and the concrete runs show. -/
theorem spec_C9_dot_capitalization_ranges :
    (∀ (c : Char) (rest : List Char),
        subDotSpace ('.' :: ' ' :: c :: rest)
          = if isDotCapRange c
            then '.' :: ' ' :: pyUpperChar c :: subDotSpace rest
            else '.' :: subDotSpace (' ' :: c :: rest))
    ∧ improve_grammar "ёж. ёж" = "Ёж. ёж"
    ∧ improve_grammar "еж. еж" = "Еж. Еж"
    ∧ improve_grammar "hi. hi" = "Hi. Hi" := by
  refine ⟨fun c rest => rfl, by decide, by decide, by decide⟩

/-- C10, confirmed. `register_hotkey` never applies the 4-key ceiling: any
string whose tokens all resolve is registered successfully and its
combination stored — in particular a 5-key chord that `validate_hotkey`
(the only place the ceiling is checked) rejects. -/
theorem spec_C10_register_ignores_size_limit :
    (∀ (hotkeys : Finset (Finset Key)) (s : String),
        (∀ p ∈ (splitPlus s.data []).map normToken, parseSingleKey p ≠ none) →
        ∃ keys, parse_hotkey s = some keys
          ∧ register_hotkey hotkeys s = (insert keys hotkeys, true))
    ∧ (∃ keys, parse_hotkey "ctrl+alt+shift+cmd+a" = some keys
        ∧ keys.card = 5
        ∧ (validate_hotkey "ctrl+alt+shift+cmd+a").1 = false
        ∧ register_hotkey ∅ "ctrl+alt+shift+cmd+a" = ({keys}, true)) := by
  constructor
  · intro hotkeys s hall
    have hs : s ≠ "" := by
      intro hs
      subst hs
      exact hall "" (by decide) (by decide)
    obtain ⟨ks, hks, hne⟩ := parseParts_resolves hall
    have hnil : (splitPlus s.data []).map normToken ≠ [] := by
      intro hcon
      exact splitPlus_ne_nil s.data [] (by simpa using hcon)
    have hksne : ks ≠ ∅ := hne.resolve_left hnil
    have hparse : parse_hotkey s = some ks := by
      simp only [parse_hotkey, if_neg hs]
      simp [hnil, hks, hksne]
    exact ⟨ks, hparse, by simp [register_hotkey, hparse]⟩
  · exact ⟨{Key.ctrl, Key.alt, Key.shift, Key.cmd, Key.char 'a'},
      by decide, by decide, by decide, by decide⟩

/-- C10, witness: a fully resolvable string registers successfully. -/
theorem spec_C10_witness :
    ∃ keys, parse_hotkey "ctrl+b" = some keys
      ∧ register_hotkey ∅ "ctrl+b" = (insert keys ∅, true) :=
  spec_C10_register_ignores_size_limit.1 ∅ "ctrl+b" (by decide)
